/-
Verification of the arc-link geometry core of `@nivo/arcs`
(`src/packages/arcs/src/links.ts`).

The embedding models JavaScript numbers as real numbers. The helpers
imported from elsewhere in the repository (`getNormalizedAngle` from
`./utils`, `positionFromAngle` and `radiansToDegrees` from `@nivo/core`)
are not part of the provided sources, so they are modelled from the spec;
everything else is translated from `links.ts` itself.

JavaScript objects produced by spread-merging (`{...extra, ...link}`) are
modelled as finite key/value maps `String → Option v`, so that the
per-key precedence of the spread operator is captured exactly.
-/
import Mathlib

open scoped Classical

/-- Cartesian point, `{x: number, y: number}`. -/
structure Point where
  x : ℝ
  y : ℝ


/-- An arc: angles in radians plus inner/outer radius. -/
structure Arc where
  startAngle : ℝ
  endAngle : ℝ
  innerRadius : ℝ
  outerRadius : ℝ


/-- Modelled from the spec: `getNormalizedAngle` (from `./utils`, not in the
provided sources) reduces an angle in radians to the canonical range
`[0, 2π)`: `angle mod 2π`, negative inputs wrapping forward. -/
noncomputable def getNormalizedAngle (angle : ℝ) : ℝ :=
  angle - 2 * Real.pi * (⌊angle / (2 * Real.pi)⌋ : ℤ)

/-- Modelled from the spec: `positionFromAngle` (from `@nivo/core`, not in the
provided sources) is the standard polar-to-Cartesian conversion
`(angleRadians, distance) -> Point`. -/
noncomputable def positionFromAngle (angle distance : ℝ) : Point :=
  { x := Real.cos angle * distance, y := Real.sin angle * distance }

/-- Modelled from the spec: `radiansToDegrees` (from `@nivo/core`, not in the
provided sources) converts radians to degrees. -/
noncomputable def radiansToDegrees (radians : ℝ) : ℝ :=
  radians * 180 / Real.pi

/-- `ArcLink`: a side classification (source type `'before' | 'after'`,
kept as strings) and a 3-point polyline. -/
structure ArcLink where
  side : String
  points : Point × Point × Point


/-- The bisecting angle computed at the top of `computeArcLink`
(`centerAngle` in the source). -/
noncomputable def centerAngle (arc : Arc) : ℝ :=
  getNormalizedAngle (arc.startAngle + (arc.endAngle - arc.startAngle) / 2 - Real.pi / 2)

/-- `computeArcLink` from `links.ts`: computes the link of a single arc. -/
noncomputable def computeArcLink (arc : Arc) (offset diagonalLength straightLength : ℝ) :
    ArcLink :=
  let angle := centerAngle arc
  let point0 : Point := positionFromAngle angle (arc.outerRadius + offset)
  let point1 : Point := positionFromAngle angle (arc.outerRadius + offset + diagonalLength)
  if angle < Real.pi / 2 ∨ angle > Real.pi * 1.5 then
    { side := "after"
      points := (point0, point1, { x := point1.x + straightLength, y := point1.y }) }
  else
    { side := "before"
      points := (point0, point1, { x := point1.x - straightLength, y := point1.y }) }

/-- `ArcLinkWithDatum<Datum>`: an `ArcLink` together with its originating
datum (field `data` in the source). -/
structure ArcLinkWithDatum (Datum : Type u) extends ArcLink where
  data : Datum

/-- A datum carrying an arc (`DatumWithArc` from `./types`): an `arc`
field plus whatever else the concrete datum type holds. -/
structure DatumWithArc (Rest : Type u) where
  arc : Arc
  rest : Rest

/-- A dynamic JavaScript object: a map from string keys to values
(`none` = key absent). -/
def Record (V : Type u) : Type u := String → Option V

/-- The empty object literal `{}`. -/
def emptyRecord : Record V := fun _ => none

/-- The spread merge `{...a, ...b}`: keys of `b` win on conflict. -/
def spread (a b : Record V) : Record V := fun key =>
  match b key with
  | some v => some v
  | none => a key

/-- Values stored in the dynamic view of a merged link object: the three
fields of an `ArcLinkWithDatum` plus arbitrary extra-prop values. -/
inductive LinkVal (Datum : Type u) (V : Type u) where
  | side : String → LinkVal Datum V
  | points : Point × Point × Point → LinkVal Datum V
  | data : Datum → LinkVal Datum V
  | extra : V → LinkVal Datum V

/-- The dynamic object underlying an `ArcLinkWithDatum`: keys `side`,
`points` and `data`, nothing else. -/
def linkRecord (link : ArcLinkWithDatum Datum) : Record (LinkVal Datum V) := fun key =>
  if key = "side" then some (LinkVal.side link.side)
  else if key = "points" then some (LinkVal.points link.points)
  else if key = "data" then some (LinkVal.data link.data)
  else none

/-- First `useMemo` stage of `useArcLinks`: filter out arcs whose angular
length (in degrees) is below `skipAngle`, then compute the link for each
eligible arc, pairing it with the original datum. -/
noncomputable def computeLinksStage (data : List (DatumWithArc Rest))
    (skipAngle offset diagonalLength straightLength : ℝ) :
    List (ArcLinkWithDatum (DatumWithArc Rest)) :=
  (data.filter fun datum =>
      decide (|radiansToDegrees (datum.arc.endAngle - datum.arc.startAngle)| ≥ skipAngle)).map
    fun datum =>
      { toArcLink := computeArcLink datum.arc offset diagonalLength straightLength
        data := datum }

/-- `useArcLinks` from `links.ts` (its pure computation): the filtered
geometry stage followed by the decoration stage, whose merge is the
spread `{...computeExtraProps(link), ...link}`. -/
noncomputable def useArcLinks (data : List (DatumWithArc Rest))
    (skipAngle offset diagonalLength straightLength : ℝ)
    (computeExtraProps :
      ArcLinkWithDatum (DatumWithArc Rest) → Record (LinkVal (DatumWithArc Rest) V)) :
    List (Record (LinkVal (DatumWithArc Rest) V)) :=
  (computeLinksStage data skipAngle offset diagonalLength straightLength).map
    fun link => spread (computeExtraProps link) (linkRecord link)

/-- Default of the `skipAngle` parameter of `useArcLinks`. -/
def defaultSkipAngle : ℝ := 0

/-- Default of the `offset` parameter of `useArcLinks`. -/
noncomputable def defaultOffset : ℝ := 0.5

/-- Default of the `computeExtraProps` parameter of `useArcLinks`:
`() => ({})`. -/
def defaultComputeExtraProps :
    ArcLinkWithDatum (DatumWithArc Rest) → Record (LinkVal (DatumWithArc Rest) V) :=
  fun _ => emptyRecord

/-- The label extra props built by the `computeExtraProps` closure inside
`useArcLinkLabels` (the source's `textAnchor` strings kept as strings). -/
structure LabelExtraProps where
  x : ℝ
  y : ℝ
  label : String
  linkColor : String
  textAnchor : String
  textColor : String

/-- The `computeExtraProps` closure of `useArcLinkLabels`: starts from
`points[2]`, shifts `x` by `textOffset` according to `side`, picks the
text anchor, and resolves label and colors through the externally
supplied accessors (parameters here, as the spec treats them). -/
def useArcLinkLabelsComputeExtraProps (textOffset : ℝ)
    (getLabel getLinkColor getTextColor : Datum → String)
    (link : ArcLinkWithDatum Datum) : LabelExtraProps :=
  let position : Point := { x := link.points.2.2.x, y := link.points.2.2.y }
  if link.side = "before" then
    { x := position.x - textOffset, y := position.y
      label := getLabel link.data
      linkColor := getLinkColor link.data
      textAnchor := "end"
      textColor := getTextColor link.data }
  else
    { x := position.x + textOffset, y := position.y
      label := getLabel link.data
      linkColor := getLinkColor link.data
      textAnchor := "start"
      textColor := getTextColor link.data }

/-- Example input for the filtering behavior: three arcs whose angular
spans are 5°, 15° and 30° (`π/36`, `π/12` and `π/6` radians). -/
noncomputable def exampleSpanData : List (DatumWithArc PUnit) :=
  [ { arc := { startAngle := 0, endAngle := Real.pi / 36,
               innerRadius := 0, outerRadius := 1 }, rest := PUnit.unit },
    { arc := { startAngle := 0, endAngle := Real.pi / 12,
               innerRadius := 0, outerRadius := 1 }, rest := PUnit.unit },
    { arc := { startAngle := 0, endAngle := Real.pi / 6,
               innerRadius := 0, outerRadius := 1 }, rest := PUnit.unit } ]

-- Helper lemmas describing the two branches of `computeArcLink`.

theorem computeArcLink_pos (arc : Arc) (offset diagonalLength straightLength : ℝ)
    (h : centerAngle arc < Real.pi / 2 ∨ centerAngle arc > Real.pi * 1.5) :
    computeArcLink arc offset diagonalLength straightLength =
      { side := "after"
        points :=
          (positionFromAngle (centerAngle arc) (arc.outerRadius + offset),
           positionFromAngle (centerAngle arc) (arc.outerRadius + offset + diagonalLength),
           { x := (positionFromAngle (centerAngle arc)
                    (arc.outerRadius + offset + diagonalLength)).x + straightLength,
             y := (positionFromAngle (centerAngle arc)
                    (arc.outerRadius + offset + diagonalLength)).y }) } := by
  rw [computeArcLink, if_pos h]

theorem computeArcLink_neg (arc : Arc) (offset diagonalLength straightLength : ℝ)
    (h : ¬(centerAngle arc < Real.pi / 2 ∨ centerAngle arc > Real.pi * 1.5)) :
    computeArcLink arc offset diagonalLength straightLength =
      { side := "before"
        points :=
          (positionFromAngle (centerAngle arc) (arc.outerRadius + offset),
           positionFromAngle (centerAngle arc) (arc.outerRadius + offset + diagonalLength),
           { x := (positionFromAngle (centerAngle arc)
                    (arc.outerRadius + offset + diagonalLength)).x - straightLength,
             y := (positionFromAngle (centerAngle arc)
                    (arc.outerRadius + offset + diagonalLength)).y }) } := by
  rw [computeArcLink, if_neg h]

/-- Normalizing `-π/2` wraps it forward to `3π/2 = 1.5π`. -/
theorem getNormalizedAngle_neg_half_pi :
    getNormalizedAngle (-(Real.pi / 2)) = Real.pi * 1.5 := by
  have hπ : (0 : ℝ) < Real.pi := Real.pi_pos
  have h2π : (2 : ℝ) * Real.pi ≠ 0 := by positivity
  have h1 : -(Real.pi / 2) / (2 * Real.pi) = -(1 / 4 : ℝ) := by
    rw [div_eq_iff h2π]; ring
  have h2 : ⌊(-(1 / 4 : ℝ))⌋ = -1 := by norm_num [Int.floor_eq_iff]
  unfold getNormalizedAngle
  rw [h1, h2]
  push_cast
  ring

/-- The `after` condition of `computeArcLink` is false at `1.5π`. -/
theorem not_after_cond_at_three_half_pi :
    ¬(Real.pi * 1.5 < Real.pi / 2 ∨ Real.pi * 1.5 > Real.pi * 1.5) := by
  have hπ : (0 : ℝ) < Real.pi := Real.pi_pos
  rintro (h | h)
  · nlinarith
  · exact lt_irrefl _ h

/-- A symmetric arc (`startAngle = -span/2`, `endAngle = span/2`) has
bisecting angle `normalize(-π/2) = 1.5π`. -/
theorem centerAngle_symmetric (span ir orad : ℝ) :
    centerAngle { startAngle := -(span / 2), endAngle := span / 2,
                  innerRadius := ir, outerRadius := orad } = Real.pi * 1.5 := by
  unfold centerAngle
  rw [show -(span / 2) + (span / 2 - -(span / 2)) / 2 - Real.pi / 2 = -(Real.pi / 2) by ring]
  exact getNormalizedAngle_neg_half_pi

/-- In a spread merge, a key present in the second (last-written) object
always gets that object's value. -/
theorem spread_last_wins (a b : Record V) (key : String) (v : V)
    (h : b key = some v) : spread a b key = some v := by
  unfold spread
  rw [h]

/-- In a spread merge, a key absent from the second object falls back to
the first object's value. -/
theorem spread_first_fallback (a b : Record V) (key : String)
    (h : b key = none) : spread a b key = a key := by
  unfold spread
  rw [h]

/-- Spreading the empty object first is the identity. -/
theorem spread_empty (b : Record V) : spread emptyRecord b = b := by
  funext key
  unfold spread
  cases b key <;> rfl

/-- The `data` key of a link's record holds its datum. -/
theorem linkRecord_data (link : ArcLinkWithDatum Datum) :
    linkRecord (V := V) link "data" = some (LinkVal.data link.data) := by
  rfl

/-- Projecting the `data` key out of every element of `useArcLinks`
recovers exactly the filtered input sequence, in order. -/
theorem useArcLinks_data_proj (data : List (DatumWithArc Rest))
    (skipAngle offset diagonalLength straightLength : ℝ)
    (computeExtraProps :
      ArcLinkWithDatum (DatumWithArc Rest) → Record (LinkVal (DatumWithArc Rest) V)) :
    (useArcLinks data skipAngle offset diagonalLength straightLength
        computeExtraProps).map (fun r => r "data") =
      (data.filter fun d =>
          decide (|radiansToDegrees (d.arc.endAngle - d.arc.startAngle)| ≥ skipAngle)).map
        (fun d => some (LinkVal.data d)) := by
  unfold useArcLinks computeLinksStage
  rw [List.map_map, List.map_map]
  refine List.map_congr_left ?_
  intro d _
  simp only [Function.comp_apply]
  exact spread_last_wins _ _ _ _ (linkRecord_data _)

/-- C5: `computeArcLink` computes the bisecting angle as
`normalize(startAngle + (endAngle - startAngle)/2 - π/2)`, places
`points[0]` at that angle at radius `outerRadius + offset`, and
`points[1]` at the same angle at radius
`outerRadius + offset + diagonalLength`. -/
theorem computeArcLink_bisector_points (arc : Arc)
    (offset diagonalLength straightLength : ℝ) :
    centerAngle arc =
      getNormalizedAngle (arc.startAngle + (arc.endAngle - arc.startAngle) / 2 - Real.pi / 2) ∧
    (computeArcLink arc offset diagonalLength straightLength).points.1 =
      positionFromAngle (centerAngle arc) (arc.outerRadius + offset) ∧
    (computeArcLink arc offset diagonalLength straightLength).points.2.1 =
      positionFromAngle (centerAngle arc) (arc.outerRadius + offset + diagonalLength) := by
  refine ⟨rfl, ?_, ?_⟩ <;>
  · by_cases h : centerAngle arc < Real.pi / 2 ∨ centerAngle arc > Real.pi * 1.5
    · rw [computeArcLink_pos arc offset diagonalLength straightLength h]
    · rw [computeArcLink_neg arc offset diagonalLength straightLength h]

/-- C7: the final link segment is horizontal: `points[2].y = points[1].y`,
and the `x` coordinate changes by exactly `±straightLength` depending on
the side. -/
theorem computeArcLink_horizontal_segment (arc : Arc)
    (offset diagonalLength straightLength : ℝ) :
    (computeArcLink arc offset diagonalLength straightLength).points.2.2.y =
      (computeArcLink arc offset diagonalLength straightLength).points.2.1.y ∧
    (computeArcLink arc offset diagonalLength straightLength).points.2.2.x =
      (computeArcLink arc offset diagonalLength straightLength).points.2.1.x +
        (if (computeArcLink arc offset diagonalLength straightLength).side = "after"
          then straightLength else -straightLength) := by
  by_cases h : centerAngle arc < Real.pi / 2 ∨ centerAngle arc > Real.pi * 1.5
  · rw [computeArcLink_pos arc offset diagonalLength straightLength h]
    exact ⟨rfl, by norm_num⟩
  · rw [computeArcLink_neg arc offset diagonalLength straightLength h]
    refine ⟨rfl, ?_⟩
    have hne : ("before" : String) ≠ "after" := by decide
    simp [hne, sub_eq_add_neg]

/-- C2: `computeArcLink` classifies `side = after` with
`points[2].x = points[1].x + straightLength` exactly when the normalized
bisecting angle is `< π/2` or `> 1.5π`, and otherwise (boundaries
included) classifies `side = before` with
`points[2].x = points[1].x - straightLength`; a symmetric arc
(`startAngle = -span/2`, `endAngle = span/2`) has normalized bisecting
angle exactly `1.5π` and lands on the `before` side. -/
theorem computeArcLink_side_classification (arc : Arc)
    (offset diagonalLength straightLength : ℝ) :
    ((centerAngle arc < Real.pi / 2 ∨ centerAngle arc > Real.pi * 1.5) →
      (computeArcLink arc offset diagonalLength straightLength).side = "after" ∧
      (computeArcLink arc offset diagonalLength straightLength).points.2.2.x =
        (computeArcLink arc offset diagonalLength straightLength).points.2.1.x +
          straightLength) ∧
    (¬(centerAngle arc < Real.pi / 2 ∨ centerAngle arc > Real.pi * 1.5) →
      (computeArcLink arc offset diagonalLength straightLength).side = "before" ∧
      (computeArcLink arc offset diagonalLength straightLength).points.2.2.x =
        (computeArcLink arc offset diagonalLength straightLength).points.2.1.x -
          straightLength) ∧
    ∀ span ir orad : ℝ,
      centerAngle { startAngle := -(span / 2), endAngle := span / 2,
                    innerRadius := ir, outerRadius := orad } = Real.pi * 1.5 ∧
      (computeArcLink
          { startAngle := -(span / 2), endAngle := span / 2,
            innerRadius := ir, outerRadius := orad }
          offset diagonalLength straightLength).side = "before" := by
  refine ⟨fun h => ?_, fun h => ?_, fun span ir orad => ?_⟩
  · rw [computeArcLink_pos arc offset diagonalLength straightLength h]
    exact ⟨rfl, rfl⟩
  · rw [computeArcLink_neg arc offset diagonalLength straightLength h]
    exact ⟨rfl, rfl⟩
  · refine ⟨centerAngle_symmetric span ir orad, ?_⟩
    have h : ¬(centerAngle { startAngle := -(span / 2), endAngle := span / 2,
                             innerRadius := ir, outerRadius := orad } < Real.pi / 2 ∨
               centerAngle { startAngle := -(span / 2), endAngle := span / 2,
                             innerRadius := ir, outerRadius := orad } > Real.pi * 1.5) := by
      rw [centerAngle_symmetric span ir orad]
      exact not_after_cond_at_three_half_pi
    rw [computeArcLink_neg _ offset diagonalLength straightLength h]

/-- C2 witness: a symmetric half-circle arc is classified `before`. -/
theorem computeArcLink_side_classification_witness :
    (computeArcLink
        { startAngle := -(Real.pi / 2), endAngle := Real.pi / 2,
          innerRadius := 0, outerRadius := 1 } 0 1 1).side = "before" :=
  ((computeArcLink_side_classification
      { startAngle := -(Real.pi / 2), endAngle := Real.pi / 2,
        innerRadius := 0, outerRadius := 1 } 0 1 1).2.2 Real.pi 0 1).2

/-- C8: the core is total. With degenerate lengths
(`diagonalLength = straightLength = 0`) `computeArcLink` still returns a
well-formed link — three coincident points and a valid side — for every
arc, including zero radii; and the batch pipeline always returns a list
no longer than its input, never failing. -/
theorem computeArcLink_no_error {Rest V : Type u} (arc : Arc) (offset : ℝ) :
    ((computeArcLink arc offset 0 0).points.1 =
        (computeArcLink arc offset 0 0).points.2.1 ∧
      (computeArcLink arc offset 0 0).points.2.1 =
        (computeArcLink arc offset 0 0).points.2.2) ∧
    ((computeArcLink arc offset 0 0).side = "before" ∨
      (computeArcLink arc offset 0 0).side = "after") ∧
    ∀ (data : List (DatumWithArc Rest))
      (skipAngle diagonalLength straightLength : ℝ)
      (computeExtraProps :
        ArcLinkWithDatum (DatumWithArc Rest) → Record (LinkVal (DatumWithArc Rest) V)),
      (useArcLinks data skipAngle offset diagonalLength straightLength
          computeExtraProps).length ≤ data.length := by
  refine ⟨?_, ?_, ?_⟩
  · by_cases h : centerAngle arc < Real.pi / 2 ∨ centerAngle arc > Real.pi * 1.5
    · rw [computeArcLink_pos arc offset 0 0 h]
      constructor
      · simp [positionFromAngle]
      · simp
    · rw [computeArcLink_neg arc offset 0 0 h]
      constructor
      · simp [positionFromAngle]
      · simp
  · by_cases h : centerAngle arc < Real.pi / 2 ∨ centerAngle arc > Real.pi * 1.5
    · rw [computeArcLink_pos arc offset 0 0 h]
      exact Or.inr rfl
    · rw [computeArcLink_neg arc offset 0 0 h]
      exact Or.inl rfl
  · intro data skipAngle diagonalLength straightLength computeExtraProps
    unfold useArcLinks computeLinksStage
    rw [List.length_map, List.length_map]
    exact List.length_filter_le _ _

/-- C4: the label decorator anchors the label at the link's terminal point
`points[2]`: `textAnchor = end` with `x` shifted by `-textOffset` when
`side = before`, `textAnchor = start` with `x` shifted by `+textOffset`
otherwise, and `y = points[2].y` in both cases. -/
theorem useArcLinkLabels_label_anchor {Datum : Type u} (textOffset : ℝ)
    (getLabel getLinkColor getTextColor : Datum → String)
    (link : ArcLinkWithDatum Datum) :
    ((useArcLinkLabelsComputeExtraProps textOffset getLabel getLinkColor getTextColor
        link).textAnchor = if link.side = "before" then "end" else "start") ∧
    ((useArcLinkLabelsComputeExtraProps textOffset getLabel getLinkColor getTextColor
        link).x =
      if link.side = "before" then link.points.2.2.x - textOffset
      else link.points.2.2.x + textOffset) ∧
    (useArcLinkLabelsComputeExtraProps textOffset getLabel getLinkColor getTextColor
        link).y = link.points.2.2.y := by
  by_cases h : link.side = "before" <;>
    simp [useArcLinkLabelsComputeExtraProps, h]

/-- C1: the decoration merge of `useArcLinks` is `{...extra, ...link}`,
so every key present on the base link object (`side`, `points`, `data`)
keeps the base link's value in the merged output element, whatever
`computeExtraProps` returned for that key; keys absent from the base link
come from the extra props. -/
theorem useArcLinks_merge_precedence (data : List (DatumWithArc Rest))
    (skipAngle offset diagonalLength straightLength : ℝ)
    (computeExtraProps :
      ArcLinkWithDatum (DatumWithArc Rest) → Record (LinkVal (DatumWithArc Rest) V)) :
    List.Forall₂
      (fun merged link =>
        (∀ key v, linkRecord link key = some v → merged key = some v) ∧
        (∀ key, linkRecord (V := V) link key = none →
          merged key = computeExtraProps link key))
      (useArcLinks data skipAngle offset diagonalLength straightLength computeExtraProps)
      (computeLinksStage data skipAngle offset diagonalLength straightLength) := by
  unfold useArcLinks
  rw [List.forall₂_map_left_iff]
  refine List.forall₂_same.2 fun link _ => ⟨fun key v h => ?_, fun key h => ?_⟩
  · exact spread_last_wins _ _ _ _ h
  · exact spread_first_fallback _ _ _ h

/-- C3: `useArcLinks` produces an output element for an input item exactly
when the item's arc angular span in degrees reaches `skipAngle`
(`decide` reflecting exactly that inequality); on arcs spanning 5°, 15°
and 30° with `skipAngle = 10`, exactly the last two items survive. -/
theorem useArcLinks_skip_angle_filter (data : List (DatumWithArc Rest))
    (skipAngle offset diagonalLength straightLength : ℝ)
    (computeExtraProps :
      ArcLinkWithDatum (DatumWithArc Rest) → Record (LinkVal (DatumWithArc Rest) V)) :
    ((useArcLinks data skipAngle offset diagonalLength straightLength
        computeExtraProps).map (fun r => r "data") =
      (data.filter fun d =>
          decide (|radiansToDegrees (d.arc.endAngle - d.arc.startAngle)| ≥ skipAngle)).map
        (fun d => some (LinkVal.data d))) ∧
    (∀ d : DatumWithArc Rest,
      decide (|radiansToDegrees (d.arc.endAngle - d.arc.startAngle)| ≥ skipAngle) = true ↔
        |radiansToDegrees (d.arc.endAngle - d.arc.startAngle)| ≥ skipAngle) ∧
    (useArcLinks exampleSpanData 10 offset diagonalLength straightLength
        defaultComputeExtraProps).map (fun r => r "data") =
      (exampleSpanData.drop 1).map
        (fun d => some ((LinkVal.data d : LinkVal (DatumWithArc PUnit) PUnit))) := by
  refine ⟨useArcLinks_data_proj _ _ _ _ _ _, fun d => by simp, ?_⟩
  rw [useArcLinks_data_proj]
  have hπ : Real.pi ≠ 0 := Real.pi_ne_zero
  have h5 : radiansToDegrees (Real.pi / 36 - 0) = 5 := by
    unfold radiansToDegrees; rw [div_eq_iff hπ]; ring
  have h15 : radiansToDegrees (Real.pi / 12 - 0) = 15 := by
    unfold radiansToDegrees; rw [div_eq_iff hπ]; ring
  have h30 : radiansToDegrees (Real.pi / 6 - 0) = 30 := by
    unfold radiansToDegrees; rw [div_eq_iff hπ]; ring
  have hd5 : decide (|radiansToDegrees (Real.pi / 36 - 0)| ≥ (10 : ℝ)) = false := by
    rw [h5, abs_of_nonneg (by norm_num : (0 : ℝ) ≤ 5)]
    exact decide_eq_false (by norm_num)
  have hd15 : decide (|radiansToDegrees (Real.pi / 12 - 0)| ≥ (10 : ℝ)) = true := by
    rw [h15, abs_of_nonneg (by norm_num : (0 : ℝ) ≤ 15)]
    exact decide_eq_true (by norm_num)
  have hd30 : decide (|radiansToDegrees (Real.pi / 6 - 0)| ≥ (10 : ℝ)) = true := by
    rw [h30, abs_of_nonneg (by norm_num : (0 : ℝ) ≤ 30)]
    exact decide_eq_true (by norm_num)
  simp only [exampleSpanData, List.filter_cons, hd5, hd15, hd30, List.filter_nil,
    List.drop_succ_cons, List.drop_zero]
  simp

/-- C6: the pipeline is order-stable: the `data` fields of the output form
a sublist of the input sequence, so surviving items keep their relative
order. -/
theorem useArcLinks_order_stable (data : List (DatumWithArc Rest))
    (skipAngle offset diagonalLength straightLength : ℝ)
    (computeExtraProps :
      ArcLinkWithDatum (DatumWithArc Rest) → Record (LinkVal (DatumWithArc Rest) V)) :
    ((useArcLinks data skipAngle offset diagonalLength straightLength
        computeExtraProps).map (fun r => r "data")).Sublist
      (data.map fun d => some (LinkVal.data d)) := by
  rw [useArcLinks_data_proj]
  exact (List.filter_sublist data).map _

/-- C9: the pipeline never replaces a datum: the `data` field of every
output element is one of the original input data, passed through
untouched (the whole computation being a pure function of its inputs). -/
theorem useArcLinks_preserves_data (data : List (DatumWithArc Rest))
    (skipAngle offset diagonalLength straightLength : ℝ)
    (computeExtraProps :
      ArcLinkWithDatum (DatumWithArc Rest) → Record (LinkVal (DatumWithArc Rest) V)) :
    (useArcLinks data skipAngle offset diagonalLength straightLength
        computeExtraProps).Forall
      (fun merged => ∃ d, d ∈ data ∧ merged "data" = some (LinkVal.data d)) := by
  rw [List.forall_iff_forall_mem]
  intro merged hm
  unfold useArcLinks computeLinksStage at hm
  rcases List.mem_map.1 hm with ⟨link, hlink, rfl⟩
  rcases List.mem_map.1 hlink with ⟨d, hd, rfl⟩
  exact ⟨d, List.mem_of_mem_filter hd, spread_last_wins _ _ _ _ (linkRecord_data _)⟩

/-- C10: with the interface defaults — `skipAngle = 0`, `offset = 0.5`,
`computeExtraProps` returning the empty object — every input item passes
the filter, the output has one element per input item, and each output
element is exactly the computed link paired with its datum, with no
extra keys. -/
theorem useArcLinks_defaults (data : List (DatumWithArc Rest))
    (diagonalLength straightLength : ℝ) :
    defaultSkipAngle = 0 ∧
    defaultOffset = 0.5 ∧
    (∀ (link : ArcLinkWithDatum (DatumWithArc Rest)) (key : String),
      defaultComputeExtraProps link key = (none : Option (LinkVal (DatumWithArc Rest) V))) ∧
    useArcLinks data defaultSkipAngle defaultOffset diagonalLength straightLength
        defaultComputeExtraProps =
      data.map (fun d =>
        (linkRecord
            { toArcLink := computeArcLink d.arc defaultOffset diagonalLength straightLength
              data := d } :
          Record (LinkVal (DatumWithArc Rest) V))) ∧
    (useArcLinks data defaultSkipAngle defaultOffset diagonalLength straightLength
        (defaultComputeExtraProps (V := V))).length = data.length := by
  have hfilter :
      (data.filter fun d =>
          decide (|radiansToDegrees (d.arc.endAngle - d.arc.startAngle)| ≥ defaultSkipAngle)) =
        data := by
    refine List.filter_eq_self.2 fun d _ => ?_
    rw [decide_eq_true_eq]
    unfold defaultSkipAngle
    exact abs_nonneg _
  have hmain :
      useArcLinks data defaultSkipAngle defaultOffset diagonalLength straightLength
          defaultComputeExtraProps =
        data.map (fun d =>
          (linkRecord
              { toArcLink := computeArcLink d.arc defaultOffset diagonalLength straightLength
                data := d } :
            Record (LinkVal (DatumWithArc Rest) V))) := by
    unfold useArcLinks computeLinksStage
    rw [hfilter, List.map_map]
    refine List.map_congr_left fun d _ => ?_
    simp only [Function.comp_apply]
    exact spread_empty _
  exact ⟨rfl, rfl, fun _ _ => rfl, hmain, by rw [hmain, List.length_map]⟩
